import Mathlib

/-!
# Verification of the odoo-venv requirement resolution and merging engine

Shallow embedding of the core logic of the `odoo-venv` repository
(`src/odoo_venv/main.py` and `src/odoo_venv/utils.py`): the custom marker
evaluator, the requirement line processor, the ignore-list builder, the
stage command runner and the preset merger.

Python strings are modelled by Lean `String`; Python `None`-able values by
`Option`; the `packaging` library's `Requirement` / `Specifier` /
`SpecifierSet` / `Version` objects are modelled by executable Lean
structures faithful to that library's documented behaviour on the
release-segment subset of PEP 440 versions (digits-and-dots versions, the
six comparison operators used by the source, no extras).  Calls into
`packaging.markers.Marker.evaluate` (the standards-conformant marker
grammar evaluator, an external black box from the point of view of the
source) are modelled by an explicit function parameter.
-/

namespace OdooVenv

/-! ## Python string primitives

Implemented structurally over `List Char` so that every definition
reduces inside the kernel; Lean's own `String.splitOn`/`String.trim` are
defined by well-founded recursion and do not. -/

/-- The whitespace class of Python's `str.strip` and of `re`'s `\s`
(ASCII view): space, tab, newline, carriage return, vertical tab, form
feed. -/
def isPySpace (c : Char) : Bool :=
  c == ' ' || c == '\t' || c == '\n' || c == '\r' || c == '\x0b' || c == '\x0c'

/-- Python `str.strip()` on a character list. -/
def pyStripChars (cs : List Char) : List Char :=
  ((cs.dropWhile isPySpace).reverse.dropWhile isPySpace).reverse

/-- Python `str.strip()`. -/
def pyStrip (s : String) : String :=
  String.mk (pyStripChars s.toList)

/-- Python `str.lower()` (ASCII view). -/
def pyLower (s : String) : String :=
  String.mk (s.toList.map Char.toLower)

/-- Python `str.startswith(pre)`. -/
def pyStartsWith (s pre : String) : Bool :=
  pre.toList.isPrefixOf s.toList

/-- Worker for `pySplit`: scan left to right, cutting at every
non-overlapping occurrence of `sep`.  The fuel argument (initially the
input length) only makes the recursion structural; it is never exhausted
when `sep` is non-empty. -/
def pySplitAux (sep : List Char) : Nat → List Char → List Char → List (List Char)
  | 0, acc, _ => [acc.reverse]
  | _, acc, [] => [acc.reverse]
  | fuel + 1, acc, c :: cs =>
    if sep.isPrefixOf (c :: cs) then
      acc.reverse :: pySplitAux sep fuel [] ((c :: cs).drop sep.length)
    else
      pySplitAux sep fuel (c :: acc) cs

/-- Python `str.split(sep)` for a non-empty separator: split on every
(non-overlapping, leftmost-first) occurrence of `sep`. -/
def pySplit (s sep : String) : List String :=
  (pySplitAux sep.toList s.toList.length [] s.toList).map String.mk

/-- Python `",".join(...)`-style joining. -/
def joinSep (sep : String) : List String → String
  | [] => ""
  | [x] => x
  | x :: xs => x ++ sep ++ joinSep sep xs

/-- Python's `sub in s` substring test, via `str.split` semantics:
`sub` occurs in `s` iff splitting on `sub` yields more than one part. -/
def containsSubstr (s sub : String) : Bool :=
  (pySplit s sub).length != 1

/-- Numeric value of a run of ASCII digits. -/
def digitsToNat (cs : List Char) : Nat :=
  cs.foldl (fun n c => n * 10 + (c.toNat - '0'.toNat)) 0

/-- Python string comparison (`<`, `<=`, … on `str`) compares code points
lexicographically. -/
def charListCmp : List Char → List Char → Ordering
  | [], [] => .eq
  | [], _ :: _ => .lt
  | _ :: _, [] => .gt
  | a :: as, b :: bs =>
    match compare a b with
    | .eq => charListCmp as bs
    | o => o

/-- Ordering of Python strings (code-point lexicographic). -/
def strCmp (a b : String) : Ordering :=
  charListCmp a.toList b.toList

/-! ## Versions (`packaging.version.parse`, release-segment subset)

`parse_version` on a digits-and-dots string yields a `Version` whose
comparison pads the shorter release tuple with zeros (`"1.0" == "1"`).
Strings outside this subset are modelled as parse failures
(`InvalidVersion`). -/

/-- Parse a release-only PEP 440 version: non-empty dot-separated runs of
digits.  Any other shape is a parse failure (models `InvalidVersion`). -/
def parseReleaseVersion (s : String) : Option (List Nat) :=
  let parts := pySplit s "."
  if parts.all (fun p => p ≠ "" && p.toList.all Char.isDigit) then
    some (parts.map (fun p => digitsToNat p.toList))
  else
    none

/-- Comparison of a release tuple against an all-zero padding (`.eq` when
every remaining segment is zero, `.gt` otherwise). -/
def vcmpZero : List Nat → Ordering
  | [] => .eq
  | b :: bs =>
    match compare b 0 with
    | .eq => vcmpZero bs
    | o => o

/-- PEP 440 release comparison: compare segment-wise, padding the shorter
tuple with zeros. -/
def vcmp : List Nat → List Nat → Ordering
  | [], bs => (vcmpZero bs).swap
  | a :: as, [] =>
    match compare a 0 with
    | .eq => vcmp as []
    | o => o
  | a :: as, b :: bs =>
    match compare a b with
    | .eq => vcmp as bs
    | o => o

/-! ## The custom marker evaluator (`_evaluate_version_expr`)

`src/odoo_venv/main.py:62-91`.  The `_COMPARISON_OPS` table maps the six
comparator tokens to Python's comparison operators. -/

/-- The six comparison operators of `_COMPARISON_OPS`
(`src/odoo_venv/main.py:20-27`). -/
inductive CompOp where
  | lt | le | gt | ge | eq | ne
deriving DecidableEq, Repr

/-- Apply a comparison operator to an `Ordering` between two values. -/
def CompOp.holds : CompOp → Ordering → Bool
  | .lt, o => o == .lt
  | .le, o => o != .gt
  | .gt, o => o == .gt
  | .ge, o => o != .lt
  | .eq, o => o == .eq
  | .ne, o => o != .eq

/-- `\w` of Python's `re` (ASCII view): letters, digits, underscore. -/
def isWordChar (c : Char) : Bool :=
  c.isAlphanum || c == '_'

/-- The ordered alternation `<=|>=|<|>|==|!=` of the atom regex at
`src/odoo_venv/main.py:79`, tried in that order against the head of the
remaining input. -/
def parseCompOp : List Char → Option (CompOp × List Char)
  | '<' :: '=' :: rest => some (.le, rest)
  | '>' :: '=' :: rest => some (.ge, rest)
  | '<' :: rest => some (.lt, rest)
  | '>' :: rest => some (.gt, rest)
  | '=' :: '=' :: rest => some (.eq, rest)
  | '!' :: '=' :: rest => some (.ne, rest)
  | _ => none

/-- `re.match(r"(\w+)\s*(<=|>=|<|>|==|!=)\s*['\"]([^'\"]+)['\"]", expr)`:
an anchored match of `variable OP quoted-literal` (trailing input is
ignored, the closing quote need not pair with the opening one, and the
literal is any non-empty run of non-quote characters). -/
def matchCompAtom (expr : String) : Option (String × CompOp × String) := do
  let cs := expr.toList
  let nameCs := cs.takeWhile isWordChar
  if nameCs.isEmpty then none
  else
    let rest := (cs.drop nameCs.length).dropWhile isPySpace
    let (op, rest) ← parseCompOp rest
    let rest := rest.dropWhile isPySpace
    match rest with
    | q :: rest =>
      if q == '\'' || q == '"' then
        let litCs := rest.takeWhile (fun c => c != '\'' && c != '"')
        if litCs.isEmpty then none
        else
          match rest.drop litCs.length with
          | q2 :: _ =>
            if q2 == '\'' || q2 == '"' then
              some (String.mk nameCs, op, String.mk litCs)
            else none
          | [] => none
      else none
    | [] => none

/-- Environment lookup (`dict.get`): first binding of the key wins. -/
def envGet (env : List (String × String)) (k : String) : Option String :=
  (env.find? (fun kv => kv.1 == k)).map (·.2)

/-- `dict[k] = v`: replace the value in place if the key is bound,
otherwise append the new binding. -/
def envSet (env : List (String × String)) (k : String) (v : String) :
    List (String × String) :=
  if (env.find? (fun kv => kv.1 == k)).isSome then
    env.map (fun kv => if kv.1 == k then (kv.1, v) else kv)
  else
    env ++ [(k, v)]

/-- One atomic comparison of `_evaluate_version_expr`
(`src/odoo_venv/main.py:78-91`): match `variable OP 'value'`; a failed
match or an unbound variable yields `False`; otherwise compare the two
operands as versions when both parse (`parse_version` raising on either
operand falls back to plain string comparison). -/
def evalCompAtom (vars : List (String × String)) (expr : String) : Bool :=
  match matchCompAtom expr with
  | none => false
  | some (varName, op, compareValue) =>
    match envGet vars varName with
    | none => false
    | some actualValue =>
      match parseReleaseVersion actualValue, parseReleaseVersion compareValue with
      | some va, some vb => op.holds (vcmp va vb)
      | _, _ => op.holds (strCmp actualValue compareValue)

/-- The `" and "` layer of `_evaluate_version_expr`
(`src/odoo_venv/main.py:75-76`): conjunction over the `" and "`-split
parts, each stripped; a part free of `" and "` is an atom. -/
def evaluateVersionAnd (vars : List (String × String)) (expr : String) : Bool :=
  if containsSubstr expr " and " then
    ((pySplit expr " and ").map pyStrip).all (evalCompAtom vars)
  else
    evalCompAtom vars expr

/-- `_evaluate_version_expr(marker_expr, vars)`
(`src/odoo_venv/main.py:62-91`): strip the expression, split on `" or "`
first (lower precedence), then on `" and "`, then evaluate atoms. -/
def evaluateVersionExpr (markerExpr : String) (vars : List (String × String)) :
    Bool :=
  let expr := pyStrip markerExpr
  if containsSubstr expr " or " then
    ((pySplit expr " or ").map pyStrip).any (evaluateVersionAnd vars)
  else
    evaluateVersionAnd vars expr

/-- `".".join(python_version.split(".")[:2])` — major.minor prefix. -/
def majorMinor (pythonVersion : String) : String :=
  joinSep "." ((pySplit pythonVersion ".").take 2)

/-- The environment updates of `_evaluate_marker`
(`src/odoo_venv/main.py:47-50`): start from `default_environment()` and,
when a (truthy) Python version was requested, override `python_version`
and `python_full_version`. -/
def markerEnv (defaultEnv : List (String × String)) (pythonVersion : Option String) :
    List (String × String) :=
  match pythonVersion with
  | some pv =>
    if pv = "" then defaultEnv
    else envSet (envSet defaultEnv "python_version" (majorMinor pv))
      "python_full_version" pv
  | none => defaultEnv

/-- `_evaluate_marker(marker_expr, odoo_version, python_version)`
(`src/odoo_venv/main.py:30-59`).  `stdEval` models
`packaging.markers.Marker(expr).evaluate(environment=env)`; a `none`
result models the call raising, which the `except Exception` clause turns
into `False`.  An empty expression is vacuously `True`; an expression
mentioning `odoo_version` is routed to the custom evaluator with
`odoo_version` added to the environment. -/
def evaluateMarker (stdEval : String → List (String × String) → Option Bool)
    (defaultEnv : List (String × String))
    (markerExpr : String) (odooVersion : String) (pythonVersion : Option String) :
    Bool :=
  if markerExpr = "" then true
  else
    let env := markerEnv defaultEnv pythonVersion
    if !containsSubstr markerExpr "odoo_version" then
      (stdEval markerExpr env).getD false
    else
      evaluateVersionExpr markerExpr (envSet env "odoo_version" odooVersion)

/-! ## Requirements and specifiers

Model of the `packaging.requirements.Requirement` /
`packaging.specifiers.SpecifierSet` objects the source manipulates, on
the subset the source exercises: names over `[A-Za-z0-9._-]` with
alphanumeric ends, the six comparators shared with `_COMPARISON_OPS`,
release-only versions, an optional trailing `; marker` text, no extras
and no URLs.  A string outside this subset is a parse failure
(`InvalidRequirement`). -/

/-- Rendering of a comparator (`str(Specifier)` operator part). -/
def opStr : CompOp → String
  | .lt => "<"
  | .le => "<="
  | .gt => ">"
  | .ge => ">="
  | .eq => "=="
  | .ne => "!="

/-- One version specifier clause, e.g. `>=1.0`. -/
structure Spec where
  op : CompOp
  ver : String
deriving DecidableEq, Repr

/-- `str(Specifier)`: operator directly followed by the version text. -/
def specStr (s : Spec) : String :=
  opStr s.op ++ s.ver

/-- `Specifier.__eq__` / `__hash__` via `_canonical_spec`: same operator
and same version after PEP 440 canonicalization (trailing zero segments
stripped, so `>=1.0` equals `>=1`); non-version operands fall back to raw
text equality. -/
def specBeq (a b : Spec) : Bool :=
  a.op == b.op &&
    match parseReleaseVersion a.ver, parseReleaseVersion b.ver with
    | some va, some vb => vcmp va vb == .eq
    | _, _ => a.ver == b.ver

/-- Membership in a clause frozenset, up to canonical equality. -/
def specMem (s : Spec) (l : List Spec) : Bool :=
  l.any (fun t => specBeq t s)

/-- `frozenset` construction from a clause list: canonical duplicates
collapse, first occurrence kept. -/
def dedupSpecs : List Spec → List Spec
  | [] => []
  | s :: rest => s :: (dedupSpecs rest).filter (fun t => !specBeq s t)

/-- `SpecifierSet.__and__`: the union of the two clause frozensets. -/
def specSetUnion (a b : List Spec) : List Spec :=
  a ++ b.filter (fun s => !specMem s a)

/-- `SpecifierSet.__eq__`: equality of the two clause frozensets. -/
def specSetEq (a b : List Spec) : Bool :=
  a.all (fun s => specMem s b) && b.all (fun s => specMem s a)

/-- Python `<` on strings, for `sorted`. -/
def strLt (a b : String) : Bool :=
  charListCmp a.toList b.toList == .lt

/-- Insertion step of `sorted` (ascending). -/
def insertStr (x : String) : List String → List String
  | [] => [x]
  | y :: ys => if strLt x y then x :: y :: ys else y :: insertStr x ys

/-- Python `sorted` on strings (ascending code-point order). -/
def sortStrs : List String → List String
  | [] => []
  | x :: xs => insertStr x (sortStrs xs)

/-- `str(SpecifierSet)`: `",".join(sorted(str(s) for s in specs))`. -/
def specSetStr (specs : List Spec) : String :=
  joinSep "," (sortStrs (specs.map specStr))

/-- One parsed requirement: `Requirement(line)` with `name`, `specifier`
and `marker` (the marker kept as raw text; its evaluation is delegated to
the external marker evaluator). -/
structure Req where
  name : String
  specs : List Spec
  marker : Option String
deriving DecidableEq, Repr

/-- Characters of a package name (and of `PKG_NAME_PATTERN`'s `lib_name`
class `[a-z0-9A-Z\-\_\.]`). -/
def isNameChar (c : Char) : Bool :=
  c.isAlphanum || c == '.' || c == '-' || c == '_'

/-- Characters of a release version operand. -/
def isVerChar (c : Char) : Bool :=
  c.isDigit || c == '.'

/-- Parse a comma-separated list of specifier clauses; returns the
clauses and the unconsumed remainder.  The fuel (initially more than the
input length) only makes the recursion structural. -/
def parseSpecClausesAux : Nat → List Char → Option (List Spec × List Char)
  | 0, _ => none
  | fuel + 1, cs =>
    let cs := cs.dropWhile isPySpace
    match parseCompOp cs with
    | none => none
    | some (op, rest) =>
      let rest := rest.dropWhile isPySpace
      let verCs := rest.takeWhile isVerChar
      if verCs.isEmpty then none
      else if (parseReleaseVersion (String.mk verCs)).isNone then none
      else
        let spec : Spec := ⟨op, String.mk verCs⟩
        let rest := (rest.drop verCs.length).dropWhile isPySpace
        match rest with
        | ',' :: rest2 =>
          match parseSpecClausesAux fuel rest2 with
          | none => none
          | some (specs, rem) => some (spec :: specs, rem)
        | _ => some ([spec], rest)

/-- Final step of `parseRequirement`: after name and specifier, the rest
must be empty or a `;`-introduced non-empty marker. -/
def finishReq (nameCs : List Char) (specs : List Spec) : List Char → Option Req
  | [] => some ⟨String.mk nameCs, dedupSpecs specs, none⟩
  | ';' :: mk =>
    if (pyStripChars mk).isEmpty then none
    else some ⟨String.mk nameCs, dedupSpecs specs, some (String.mk (pyStripChars mk))⟩
  | _ => none

/-- `packaging.requirements.Requirement(s)` on the modelled subset;
`none` models `InvalidRequirement`. -/
def parseRequirement (s : String) : Option Req :=
  let cs := s.toList.dropWhile isPySpace
  let nameCs := cs.takeWhile isNameChar
  if nameCs.isEmpty then none
  else if !(nameCs.headD '!').isAlphanum || !(nameCs.getLastD '!').isAlphanum then
    none
  else
    let rest := (cs.drop nameCs.length).dropWhile isPySpace
    match rest with
    | [] => finishReq nameCs [] []
    | ';' :: _ => finishReq nameCs [] rest
    | _ =>
      match parseSpecClausesAux (rest.length + 1) rest with
      | none => none
      | some (specs, rem) => finishReq nameCs specs rem

/-! ## The requirement line processor -/

/-- Outcome of `_keep_if_marker_matches`: `invalidReq` models
`Requirement(req_line)` raising `InvalidRequirement` (which propagates to
the caller), `dropped` a `None` return, `kept line` the
`f"{req.name}{spec}"` return. -/
inductive KeepResult where
  | invalidReq
  | dropped
  | kept (line : String)
deriving DecidableEq, Repr

/-- `_keep_if_marker_matches(req_line, env)` (`src/odoo_venv/main.py:185-196`):
strip the `#`-comment suffix and whitespace, drop blank results, parse,
drop the line when its marker evaluates false, otherwise return the
marker-free `name + specifier` text.  `mEval` models
`req.marker.evaluate(environment=env)` with the environment fixed. -/
def keepIfMarkerMatches (mEval : String → Bool) (reqLine : String) : KeepResult :=
  let l := pyStrip ((pySplit reqLine "#").headD "")
  if l = "" then .dropped
  else
    match parseRequirement l with
    | none => .invalidReq
    | some req =>
      match req.marker with
      | some m =>
        if !mEval m then .dropped else .kept (req.name ++ specSetStr req.specs)
      | none => .kept (req.name ++ specSetStr req.specs)

/-- The `defaultdict(list)` mapping lower-cased package names to their
ignore requirements. -/
abbrev IgnoreMap := List (String × List Req)

/-- Key lookup in the ignore map. -/
def mapFind? (m : IgnoreMap) (k : String) : Option (List Req) :=
  (m.find? (fun kv => kv.1 == k)).map (·.2)

/-- `k in m`. -/
def mapContains (m : IgnoreMap) (k : String) : Bool :=
  (mapFind? m k).isSome

/-- `m[k].append(r)` on a `defaultdict(list)`. -/
def mapAppend (m : IgnoreMap) (k : String) (r : Req) : IgnoreMap :=
  if mapContains m k then
    m.map (fun kv => if kv.1 == k then (kv.1, kv.2 ++ [r]) else kv)
  else
    m ++ [(k, [r])]

/-- The ignore decision of `_process_requirement_line`
(`src/odoo_venv/main.py:272-279`): look the lower-cased name up in the
ignore map; an entry matches when its specifier set is empty, or when the
requirement has a specifier and
`(req.specifier & ignored_req.specifier) == req.specifier`. -/
def shouldIgnore (ignoredReqMap : IgnoreMap) (req : Req) : Bool :=
  match mapFind? ignoredReqMap (pyLower req.name) with
  | none => false
  | some entries =>
    entries.any (fun ignoredReq =>
      ignoredReq.specs.isEmpty ||
        (!req.specs.isEmpty &&
          specSetEq (specSetUnion req.specs ignoredReq.specs) req.specs))

/-- `PKG_NAME_PATTERN.match(req_line)` (`src/odoo_venv/main.py:16`): the
`lib_name` group is the maximal leading run of `[a-z0-9A-Z\-\_\.]`
characters; the rest of the pattern always matches, so the match fails
exactly when that run is empty. -/
def extractLibName (s : String) : Option String :=
  let nameCs := s.toList.takeWhile isNameChar
  if nameCs.isEmpty then none else some (String.mk nameCs)

/-- The permissive fallback of `_process_requirement_line`
(`src/odoo_venv/main.py:287-293`): on `InvalidRequirement`, skip the line
when the pattern-extracted name (lower-cased, stripped) is a key of the
ignore map, else emit the original line verbatim. -/
def fallbackProcess (ignoredReqMap : IgnoreMap) (reqLine : String) : Option String :=
  match extractLibName reqLine with
  | some nm =>
    if mapContains ignoredReqMap (pyStrip (pyLower nm)) then none else some reqLine
  | none => some reqLine

/-- `_process_requirement_line(req_line, ignored_req_map, tmp_file, env)`
(`src/odoo_venv/main.py:255-293`).  `some line` models "write `line` to
the temporary output and return `True`"; `none` models "return `False`";
the write happens exactly when `True` is returned, so each processed line
is counted at most once. -/
def processRequirementLine (mEval : String → Bool) (ignoredReqMap : IgnoreMap)
    (reqLine : String) : Option String :=
  let rl := pyStrip reqLine
  if rl = "" || pyStartsWith rl "#" then none
  else
    match keepIfMarkerMatches mEval rl with
    | .dropped => none
    | .invalidReq => fallbackProcess ignoredReqMap rl
    | .kept validLine =>
      if validLine = "" then none
      else
        match parseRequirement validLine with
        | none => fallbackProcess ignoredReqMap rl
        | some req =>
          if shouldIgnore ignoredReqMap req then none else some validLine

/-! ## The ignore-list builder (`create_odoo_venv`, aggregation path) -/

/-- The comma-splitting of one raw ignore option in `create_odoo_venv`
(`src/odoo_venv/main.py:380-388`):
`[pkg.strip() for pkg in raw.split(",") if pkg.strip()]` — a plain split
on every comma, no backslash-escape handling. -/
def splitIgnoreRaw (raw : String) : List String :=
  ((pySplit raw ",").map pyStrip).filter (fun p => p != "")

/-- The ignore-map construction of `create_odoo_venv`
(`src/odoo_venv/main.py:390-402`): parse each entry, drop it silently
when its marker does not match, re-parse the marker-free
`f"{req.name}{req.specifier}"` text and group by lower-cased name;
entries failing to parse are reported (second component) and dropped.
`mEval` models `req.marker.evaluate(target_env_for_markers)`. -/
def buildIgnoredReqMap (mEval : String → Bool) (ignoreReqLines : List String) :
    IgnoreMap × List String :=
  ignoreReqLines.foldl
    (fun acc reqLine =>
      match parseRequirement reqLine with
      | none => (acc.1, acc.2 ++ [reqLine])
      | some req =>
        if req.marker.isNone || mEval (req.marker.getD "") then
          match parseRequirement (req.name ++ specSetStr req.specs) with
          | some newReq => (mapAppend acc.1 (pyLower newReq.name) newReq, acc.2)
          | none => (acc.1, acc.2 ++ [reqLine])
        else (acc.1, acc.2))
    ([], [])

/-- Worker for `split_escaped`: cut at commas whose directly preceding
character is not a backslash (the regex `(?<!\\),`). -/
def splitEscapedAux : List Char → List Char → List (List Char)
  | acc, [] => [acc.reverse]
  | acc, ',' :: rest =>
    if acc.headD ' ' == '\\' then splitEscapedAux (',' :: acc) rest
    else acc.reverse :: splitEscapedAux [] rest
  | acc, c :: rest => splitEscapedAux (c :: acc) rest

/-- `p.replace("\\,", ",")`: left-to-right, non-overlapping. -/
def unescapeComma : List Char → List Char
  | [] => []
  | '\\' :: ',' :: rest => ',' :: unescapeComma rest
  | c :: rest => c :: unescapeComma rest

/-- `split_escaped(s, sep=",")` (`src/odoo_venv/utils.py:12-28`),
specialised to its default comma separator: split on unescaped commas,
unescaping `\,` in the resulting pieces.  This helper is defined in the
source but the aggregation path of `create_odoo_venv` splits with
`splitIgnoreRaw` instead. -/
def splitEscaped (s : String) : List String :=
  (splitEscapedAux [] s.toList).map (fun p => String.mk (unescapeComma p))

/-! ## The stage command runner -/

/-- `VALID_STAGES` (`src/odoo_venv/main.py:18`). -/
def VALID_STAGES : List String :=
  ["after_venv", "after_requirements", "after_odoo_install"]

/-- The fixed order in which `create_odoo_venv` invokes
`_run_commands_for_stage` (`src/odoo_venv/main.py:357,479,503`):
`after_venv` is the first (designated default) stage. -/
def stageOrder : List String :=
  ["after_venv", "after_requirements", "after_odoo_install"]

/-- One extra-command spec: keys `command`, `when`, `stage`, `env` of the
command dict; an absent key is `none` / the Python `dict.get` default. -/
structure CmdSpec where
  command : Option (List String) := none
  whenExpr : String := ""
  stage : Option String := none
  env : List (String × String) := []
deriving DecidableEq, Repr

/-- `_validate_cmd_spec(cmd_spec, i, stage, is_first)`
(`src/odoo_venv/main.py:94-102`): the run decision it returns is
`cmd_spec.get("stage") == stage`; the unknown-stage warning does not
change it. -/
def validateCmdSpec (cmdSpec : CmdSpec) (stage : String) : Bool :=
  cmdSpec.stage == some stage

/-- Whether `_run_commands_for_stage` (`src/odoo_venv/main.py:131-182`)
executes a given command when invoked for `stage`: the
`_validate_cmd_spec` stage check, then the `when` marker evaluated by
`_evaluate_marker`, then the missing-or-invalid `command` field check. -/
def cmdRunsAtStage (stdEval : String → List (String × String) → Option Bool)
    (defaultEnv : List (String × String)) (odooVersion : String)
    (pythonVersion : Option String) (cmdSpec : CmdSpec) (stage : String) : Bool :=
  if !validateCmdSpec cmdSpec stage then false
  else if !evaluateMarker stdEval defaultEnv cmdSpec.whenExpr odooVersion pythonVersion
  then false
  else
    match cmdSpec.command with
    | some (_ :: _) => true
    | _ => false

/-! ## The preset merger (`_merge_preset_options`) -/

/-- A TOML value as found in a preset section: booleans, strings and
extra-command lists, plus Python `None` (checked for by the source even
though TOML documents do not produce it). -/
inductive TomlVal where
  | vNone
  | vBool (b : Bool)
  | vStr (s : String)
  | vList (xs : List CmdSpec)
deriving DecidableEq, Repr

/-- A preset options dict: insertion-ordered key/value pairs. -/
abbrev TomlDict := List (String × TomlVal)

/-- Python truthiness of a TOML value. -/
def tomlTruthy : TomlVal → Bool
  | .vNone => false
  | .vBool b => b
  | .vStr s => s != ""
  | .vList xs => !xs.isEmpty

/-- `v is None`. -/
def tomlIsNone : TomlVal → Bool
  | .vNone => true
  | _ => false

/-- Python `str(v)` as used by the f-string concatenation; exact for the
string values that string-list fields hold in well-formed preset
documents. -/
def tomlValStr : TomlVal → String
  | .vStr s => s
  | .vBool true => "True"
  | .vBool false => "False"
  | .vNone => "None"
  | .vList _ => "[...]"

/-- Dict lookup. -/
def dictFind? (d : TomlDict) (k : String) : Option TomlVal :=
  (d.find? (fun kv => kv.1 == k)).map (·.2)

/-- `d[k] = v`: replace in place when bound, else append. -/
def dictSet (d : TomlDict) (k : String) (v : TomlVal) : TomlDict :=
  if (d.find? (fun kv => kv.1 == k)).isSome then
    d.map (fun kv => if kv.1 == k then (kv.1, v) else kv)
  else
    d ++ [(k, v)]

/-- `string_list_fields` of `_merge_preset_options`
(`src/odoo_venv/utils.py:83-88`). -/
def string_list_fields : List String :=
  ["ignore_from_odoo_requirements", "ignore_from_addons_dirs_requirements",
   "ignore_from_addons_manifests_requirements", "extra_requirement"]

/-- `list_fields` of `_merge_preset_options` (`src/odoo_venv/utils.py:89`). -/
def list_fields : List String :=
  ["extra_commands"]

/-- `_merge_preset_options(common_options, preset_options)`
(`src/odoo_venv/utils.py:70-114`): seed the result with every non-`None`
`common` field except `description`, then layer the preset's non-`None`
fields: list fields extend (when the merged value is truthy and both are
lists), string-list fields comma-join (when the merged value is truthy),
everything else is replaced outright. -/
def mergePresetOptions (commonOptions presetOptions : TomlDict) : TomlDict :=
  let merged := commonOptions.foldl
    (fun merged kv =>
      if kv.1 != "description" && !tomlIsNone kv.2 then dictSet merged kv.1 kv.2
      else merged)
    []
  presetOptions.foldl
    (fun merged kv =>
      let key := kv.1
      let v := kv.2
      if tomlIsNone v then merged
      else if list_fields.contains key && (dictFind? merged key).any tomlTruthy then
        match dictFind? merged key, v with
        | some (.vList xs), .vList ys => dictSet merged key (.vList (xs ++ ys))
        | _, _ => dictSet merged key v
      else if string_list_fields.contains key
          && (dictFind? merged key).any tomlTruthy then
        dictSet merged key
          (.vStr (tomlValStr ((dictFind? merged key).getD .vNone) ++ ","
            ++ tomlValStr v))
      else dictSet merged key v)
    merged

/-! ## Spec-side range semantics

Written from the spec's words, for comparison with the source's
clause-set check (claim C1 speaks of "the requirement's specifier range
is fully contained in (logically implied by) the ignore entry's specifier
range"). -/

/-- Whether a release version satisfies one specifier clause, under PEP
440 range semantics. -/
def satisfiesSpec (v : List Nat) (s : Spec) : Bool :=
  match parseReleaseVersion s.ver with
  | some w => s.op.holds (vcmp v w)
  | none => false

/-- The spec's containment relation: every release version satisfying all
clauses of `a` satisfies all clauses of `b` (`a`'s range is fully
contained in `b`'s range). -/
def SpecSetContained (a b : List Spec) : Prop :=
  ∀ v : List Nat, (∀ s ∈ a, satisfiesSpec v s = true) →
    ∀ s ∈ b, satisfiesSpec v s = true

/-- Whether an output line still carries marker text: a PEP 508 marker is
introduced by a semicolon, and no semicolon can occur in the name or
specifier text the processor emits on its formal path. -/
def carriesMarkerText (l : String) : Bool :=
  l.toList.contains ';'

/-! ## Lemmas about specifier sets and the line processor -/

/-- Padded release comparison is reflexive. -/
theorem vcmp_self (v : List Nat) : vcmp v v = .eq := by
  induction v with
  | nil => rfl
  | cons a as ih => simp [vcmp, Nat.compare_eq_eq.mpr rfl, ih]

/-- Canonical specifier equality is reflexive. -/
theorem specBeq_refl (s : Spec) : specBeq s s = true := by
  simp only [specBeq]
  cases parseReleaseVersion s.ver with
  | none => simp
  | some w => simp [vcmp_self]; decide

/-- A listed clause is a member of its own clause set. -/
theorem specMem_of_mem {s : Spec} {l : List Spec} (h : s ∈ l) :
    specMem s l = true := by
  simp only [specMem, List.any_eq_true]
  exact ⟨s, h, specBeq_refl s⟩

/-- The source's clause-set check
`(req.specifier & ignored.specifier) == req.specifier` holds exactly when
every clause of the ignore specifier already occurs (canonically) among
the requirement's clauses. -/
theorem specSetEq_union_left_iff (A B : List Spec) :
    specSetEq (specSetUnion A B) A = true ↔ ∀ s ∈ B, specMem s A = true := by
  constructor
  · intro h s hs
    by_cases hm : specMem s A = true
    · exact hm
    · simp only [specSetEq, Bool.and_eq_true] at h
      rcases h with ⟨h1, _⟩
      rw [List.all_eq_true] at h1
      refine h1 s ?_
      simp [specSetUnion, List.mem_append, List.mem_filter, hs, hm]
  · intro h
    have hfilt : B.filter (fun s => !specMem s A) = [] := by
      rw [List.filter_eq_nil_iff]
      intro a ha
      simp [h a ha]
    simp only [specSetEq, specSetUnion, hfilt, List.append_nil, Bool.and_self]
    rw [List.all_eq_true]
    exact fun s hs => specMem_of_mem hs

/-- The full per-entry ignore condition of `_process_requirement_line`,
as a proposition. -/
theorem ignore_cond_iff (req ign : Req) :
    (ign.specs.isEmpty ||
        (!req.specs.isEmpty &&
          specSetEq (specSetUnion req.specs ign.specs) req.specs)) = true
      ↔ ign.specs = [] ∨
        (req.specs ≠ [] ∧ ∀ s ∈ ign.specs, specMem s req.specs = true) := by
  rw [Bool.or_eq_true, Bool.and_eq_true, specSetEq_union_left_iff]
  simp

/-- A fully blank line is dropped by `_keep_if_marker_matches`. -/
theorem keep_empty (mEval : String → Bool) :
    keepIfMarkerMatches mEval "" = .dropped := rfl

/-- A line starting with `#` is dropped by `_keep_if_marker_matches` (its
comment-stripped remainder is empty). -/
theorem keep_hash (mEval : String → Bool) (s : String)
    (h : pyStartsWith s "#" = true) : keepIfMarkerMatches mEval s = .dropped := by
  rcases s with ⟨cs⟩
  cases cs with
  | nil => cases h
  | cons c cs =>
    have hc : '#' = c := by
      simpa [pyStartsWith, List.isPrefixOf] using h
    subst hc
    simp [keepIfMarkerMatches, pySplit, pySplitAux, List.isPrefixOf, pyStrip,
      pyStripChars]

/-- A line whose processing reached `_keep_if_marker_matches` with a
non-`dropped` outcome is neither blank nor a comment line. -/
theorem keep_not_dropped_conds (mEval : String → Bool) (s : String)
    (h : keepIfMarkerMatches mEval s ≠ .dropped) :
    s ≠ "" ∧ pyStartsWith s "#" = false := by
  constructor
  · intro he
    exact h (he ▸ keep_empty mEval)
  · by_contra hh
    exact h (keep_hash mEval s (by simpa using hh))

/-- Appending strings appends their character lists. -/
theorem toList_append (a b : String) : (a ++ b).toList = a.toList ++ b.toList := by
  rcases a with ⟨as⟩
  rcases b with ⟨bs⟩
  rfl

/-- A character of a joined string comes from the separator or from one
of the pieces. -/
theorem mem_toList_joinSep (c : Char) (sep : String) (l : List String)
    (h : c ∈ (joinSep sep l).toList) : c ∈ sep.toList ∨ ∃ x ∈ l, c ∈ x.toList := by
  induction l with
  | nil => cases h
  | cons x xs ih =>
    cases xs with
    | nil => exact Or.inr ⟨x, by simp, h⟩
    | cons y ys =>
      have h' : c ∈ ((x ++ sep) ++ joinSep sep (y :: ys)).toList := h
      rw [toList_append, toList_append] at h'
      rcases List.mem_append.mp h' with h1 | h2
      · rcases List.mem_append.mp h1 with ha | hb
        · exact Or.inr ⟨x, by simp, ha⟩
        · exact Or.inl hb
      · rcases ih h2 with hs | ⟨z, hz, hcz⟩
        · exact Or.inl hs
        · exact Or.inr ⟨z, List.mem_cons_of_mem x hz, hcz⟩

/-- Insertion sort inserts, it does not invent elements. -/
theorem mem_insertStr {x y : String} {l : List String}
    (h : y ∈ insertStr x l) : y = x ∨ y ∈ l := by
  induction l with
  | nil => rw [insertStr] at h; simpa using h
  | cons z zs ih =>
    rw [insertStr] at h
    split at h
    · exact List.mem_cons.mp h
    · rcases List.mem_cons.mp h with h | h
      · rw [h]; exact Or.inr (List.mem_cons_self z zs)
      · rcases ih h with h' | h'
        · exact Or.inl h'
        · exact Or.inr (List.mem_cons_of_mem z h')

/-- Sorting permutes; membership is preserved. -/
theorem mem_sortStrs {y : String} {l : List String} (h : y ∈ sortStrs l) :
    y ∈ l := by
  induction l with
  | nil => rw [sortStrs] at h; cases h
  | cons x xs ih =>
    rw [sortStrs] at h
    rcases mem_insertStr h with h | h
    · rw [h]; exact List.mem_cons_self x xs
    · exact List.mem_cons_of_mem x (ih h)

/-- Deduplication keeps only listed clauses. -/
theorem mem_dedupSpecs {s : Spec} {l : List Spec} (h : s ∈ dedupSpecs l) :
    s ∈ l := by
  induction l with
  | nil => rw [dedupSpecs] at h; cases h
  | cons x xs ih =>
    rw [dedupSpecs] at h
    rcases List.mem_cons.mp h with h | h
    · rw [h]; exact List.mem_cons_self x xs
    · exact List.mem_cons_of_mem x (ih (List.mem_filter.mp h).1)

/-- Every clause produced by the specifier parser has a version made of
version characters only. -/
theorem parseSpecClausesAux_chars (fuel : Nat) :
    ∀ (cs : List Char) (specs : List Spec) (rem : List Char),
      parseSpecClausesAux fuel cs = some (specs, rem) →
      ∀ sp ∈ specs, ∀ c ∈ sp.ver.toList, isVerChar c = true := by
  induction fuel with
  | zero => intro cs specs rem h; cases h
  | succ n ih =>
    intro cs specs rem h sp hsp c hc
    simp only [parseSpecClausesAux] at h
    split at h
    · cases h
    · split at h
      · cases h
      · split at h
        · cases h
        · split at h
          · split at h
            · cases h
            · rename_i heq
              injection h with h'
              injection h' with h1 h2
              rw [← h1] at hsp
              rcases List.mem_cons.mp hsp with hx | hx
              · rw [hx] at hc
                exact List.mem_takeWhile_imp hc
              · exact ih _ _ _ heq sp hx c hc
          · injection h with h'
            injection h' with h1 h2
            rw [← h1] at hsp
            rcases List.mem_cons.mp hsp with hx | hx
            · rw [hx] at hc
              exact List.mem_takeWhile_imp hc
            · cases hx

/-- `finishReq` keeps the given name and deduplicates the given clauses. -/
theorem finishReq_shape (nameCs : List Char) (specs : List Spec)
    (rest : List Char) (req : Req) (h : finishReq nameCs specs rest = some req) :
    req.name = String.mk nameCs ∧ req.specs = dedupSpecs specs := by
  unfold finishReq at h
  split at h
  · injection h with h'
    rw [← h']
    exact ⟨rfl, rfl⟩
  · split at h
    · cases h
    · injection h with h'
      rw [← h']
      exact ⟨rfl, rfl⟩
  · cases h

/-- Every requirement produced by the parser has a name of name
characters and specifier versions of version characters. -/
theorem parseRequirement_chars (s : String) (req : Req)
    (h : parseRequirement s = some req) :
    (∀ c ∈ req.name.toList, isNameChar c = true) ∧
    (∀ sp ∈ req.specs, ∀ c ∈ sp.ver.toList, isVerChar c = true) := by
  simp only [parseRequirement] at h
  split at h
  · cases h
  · split at h
    · cases h
    · split at h
      · obtain ⟨hn, hs⟩ := finishReq_shape _ _ _ _ h
        refine ⟨fun c hc => ?_, fun sp hsp => ?_⟩
        · rw [hn] at hc
          exact List.mem_takeWhile_imp hc
        · rw [hs] at hsp
          cases mem_dedupSpecs hsp
      · obtain ⟨hn, hs⟩ := finishReq_shape _ _ _ _ h
        refine ⟨fun c hc => ?_, fun sp hsp => ?_⟩
        · rw [hn] at hc
          exact List.mem_takeWhile_imp hc
        · rw [hs] at hsp
          cases mem_dedupSpecs hsp
      · split at h
        · cases h
        · rename_i specs0 rem0 heq
          obtain ⟨hn, hs⟩ := finishReq_shape _ _ _ _ h
          refine ⟨fun c hc => ?_, fun sp hsp c hc => ?_⟩
          · rw [hn] at hc
            exact List.mem_takeWhile_imp hc
          · rw [hs] at hsp
            exact parseSpecClausesAux_chars _ _ _ _ heq sp (mem_dedupSpecs hsp) c hc

/-- No comparator rendering contains a semicolon. -/
theorem opStr_no_semicolon (op : CompOp) : ';' ∉ (opStr op).toList := by
  cases op <;> decide

/-- The marker-free `name + specifier` text of a parsed requirement
contains no semicolon. -/
theorem emitted_no_semicolon (s : String) (req : Req)
    (h : parseRequirement s = some req) :
    carriesMarkerText (req.name ++ specSetStr req.specs) = false := by
  obtain ⟨hname, hspec⟩ := parseRequirement_chars s req h
  have hmem : ';' ∉ (req.name ++ specSetStr req.specs).toList := by
    rw [toList_append]
    intro hc
    rcases List.mem_append.mp hc with hc | hc
    · have := hname _ hc
      exact absurd this (by decide)
    · rcases mem_toList_joinSep _ _ _ hc with hsep | ⟨x, hx, hcx⟩
      · exact absurd hsep (by decide)
      · rcases List.mem_map.mp (mem_sortStrs hx) with ⟨sp, hsp, hxeq⟩
        rw [← hxeq] at hcx
        have hcx' : ';' ∈ (opStr sp.op).toList ++ sp.ver.toList := by
          rw [← toList_append]; exact hcx
        rcases List.mem_append.mp hcx' with hco | hcv
        · exact opStr_no_semicolon sp.op hco
        · have := hspec sp hsp _ hcv
          exact absurd this (by decide)
  simpa [carriesMarkerText] using hmem

/-- A `kept` outcome of `_keep_if_marker_matches` is always the
marker-free `name + specifier` text of the parsed line. -/
theorem kept_shape (mEval : String → Bool) (s v : String)
    (h : keepIfMarkerMatches mEval s = .kept v) :
    ∃ req : Req, parseRequirement (pyStrip ((pySplit s "#").headD "")) = some req ∧
      v = req.name ++ specSetStr req.specs := by
  simp only [keepIfMarkerMatches] at h
  split at h
  · cases h
  · split at h
    · cases h
    · rename_i req heq
      split at h
      · split at h
        · cases h
        · injection h with h'
          exact ⟨req, heq, h'.symm⟩
      · injection h with h'
        exact ⟨req, heq, h'.symm⟩

/-! ## Claims -/

/-- C5: the custom marker evaluator returns `true` for
`odoo_version >= '16.0' and odoo_version < '18.0'` under
`{odoo_version: "17.0"}` and `false` under `{odoo_version: "18.0"}`, and
`true` for `odoo_version == '13.0' or odoo_version == '14.0'` under
`{odoo_version: "14.0"}`. -/
theorem c5_custom_marker_examples :
    evaluateVersionExpr "odoo_version >= '16.0' and odoo_version < '18.0'"
        [("odoo_version", "17.0")] = true ∧
    evaluateVersionExpr "odoo_version >= '16.0' and odoo_version < '18.0'"
        [("odoo_version", "18.0")] = false ∧
    evaluateVersionExpr "odoo_version == '13.0' or odoo_version == '14.0'"
        [("odoo_version", "14.0")] = true :=
  ⟨by decide, by decide, by decide⟩

/-- C10: the aggregator splits raw ignore strings on every comma with no
backslash-escape handling, so the single entry `pkg>=2.0,<3.0` is broken
into the fragments `pkg>=2.0` and `<3.0`; `<3.0` is not a valid
requirement on its own and is reported and dropped, so the resulting
ignore map holds only `pkg>=2.0`.  On the escaped spelling
`pkg>=2.0\,<3.0` the plain split still cuts at the comma, while the
(never invoked on this path) `split_escaped` helper would keep the entry
whole. -/
theorem c10_ignore_split_no_escape :
    splitIgnoreRaw "pkg>=2.0,<3.0" = ["pkg>=2.0", "<3.0"] ∧
    parseRequirement "<3.0" = none ∧
    buildIgnoredReqMap (fun _ => true) (splitIgnoreRaw "pkg>=2.0,<3.0")
      = ([("pkg", [⟨"pkg", [⟨CompOp.ge, "2.0"⟩], none⟩])], ["<3.0"]) ∧
    splitIgnoreRaw "pkg>=2.0\\,<3.0" = ["pkg>=2.0\\", "<3.0"] ∧
    splitEscaped "pkg>=2.0\\,<3.0" = ["pkg>=2.0,<3.0"] :=
  ⟨by decide, by decide, by decide, by decide, by decide⟩

/-- C3 (counterexample): the claim that a command whose `stage` field is
absent runs when the runner is invoked for the designated default (first)
stage is false — such a command is not executed even at `after_venv`,
despite a valid `command` field and a vacuously true `when` marker,
because `cmd_spec.get("stage") == stage` compares `None` to the stage
name. -/
theorem c3_counterexample :
    stageOrder.headD "" = "after_venv" ∧
    cmdRunsAtStage (fun _ _ => none) [] "16.0" none
      { command := some ["echo", "hi"], whenExpr := "", stage := none, env := [] }
      "after_venv" = false :=
  ⟨by decide, by decide⟩

/-- C3 (amended): an extra command whose `stage` field is absent is never
executed, at any stage — including the designated default (first) stage. -/
theorem c3_amended_stageless_never_runs
    (stdEval : String → List (String × String) → Option Bool)
    (defaultEnv : List (String × String)) (odooVersion : String)
    (pythonVersion : Option String) (cmdSpec : CmdSpec) (stage : String)
    (h : cmdSpec.stage = none) :
    cmdRunsAtStage stdEval defaultEnv odooVersion pythonVersion cmdSpec stage
      = false := by
  simp [cmdRunsAtStage, validateCmdSpec, h]

/-- C3 (witness): the amended statement at a concrete stage-less command
and a concrete non-default stage. -/
theorem c3_amended_witness :
    cmdRunsAtStage (fun _ _ => none) [] "16.0" none
      { command := some ["echo"], whenExpr := "", stage := none, env := [] }
      "after_requirements" = false :=
  c3_amended_stageless_never_runs (fun _ _ => none) [] "16.0" none
    { command := some ["echo"], whenExpr := "", stage := none, env := [] }
    "after_requirements" rfl

/-- C7: the marker evaluator is total (never propagates an error to its
caller): an empty expression is vacuously true; an expression free of the
custom `odoo_version` variable is delegated to the standard marker
evaluator on the target environment, with an evaluation error there
(modelled by `none`) yielding `false`. -/
theorem c7_marker_eval_fail_closed
    (stdEval : String → List (String × String) → Option Bool)
    (defaultEnv : List (String × String)) (expr odooVersion : String)
    (pythonVersion : Option String)
    (hne : expr ≠ "")
    (hno : containsSubstr expr "odoo_version" = false) :
    evaluateMarker stdEval defaultEnv "" odooVersion pythonVersion = true ∧
    evaluateMarker stdEval defaultEnv expr odooVersion pythonVersion
      = (stdEval expr (markerEnv defaultEnv pythonVersion)).getD false ∧
    (stdEval expr (markerEnv defaultEnv pythonVersion) = none →
      evaluateMarker stdEval defaultEnv expr odooVersion pythonVersion = false) := by
  refine ⟨rfl, ?_, ?_⟩
  · simp [evaluateMarker, hne, hno]
  · intro h
    simp [evaluateMarker, hne, hno, h]

/-- C7 (witness): a non-empty standard-grammar expression whose standard
evaluation errors out evaluates to `false`. -/
theorem c7_witness :
    evaluateMarker (fun _ _ => none) [] "os_name ==" "16.0" none = false :=
  (c7_marker_eval_fail_closed (fun _ _ => none) [] "os_name ==" "16.0" none
    (by decide) (by decide)).2.2 rfl

/-- C6: in the custom marker evaluator, an atomic comparison
`variable OP quoted-literal` compares the two operands as parsed versions
whenever both parse (so `"10.0" < "9.0"` is `false`, not a lexical
comparison), falls back to direct string comparison when version parsing
fails on either side, evaluates to `false` when the sub-expression does
not match the atom grammar, and evaluates to `false` when the variable is
absent from the environment. -/
theorem c6_atom_semantics (vars : List (String × String))
    (expr varName lit actual : String) (op : CompOp) (va vl : List Nat)
    (hm : matchCompAtom expr = some (varName, op, lit))
    (hv : envGet vars varName = some actual) :
    (parseReleaseVersion actual = some va → parseReleaseVersion lit = some vl →
      evalCompAtom vars expr = op.holds (vcmp va vl)) ∧
    (parseReleaseVersion actual = none ∨ parseReleaseVersion lit = none →
      evalCompAtom vars expr = op.holds (strCmp actual lit)) ∧
    (∀ e, matchCompAtom e = none → evalCompAtom vars e = false) ∧
    (∀ e v2 o2 l2, matchCompAtom e = some (v2, o2, l2) → envGet vars v2 = none →
      evalCompAtom vars e = false) ∧
    evalCompAtom [("odoo_version", "10.0")] "odoo_version < '9.0'" = false := by
  refine ⟨?_, ?_, ?_, ?_, by decide⟩
  · intro ha hl
    simp [evalCompAtom, hm, hv, ha, hl]
  · intro h
    rcases h with h | h
    · simp [evalCompAtom, hm, hv, h]
    · simp only [evalCompAtom, hm, hv, h]
      cases parseReleaseVersion actual <;> rfl
  · intro e he
    simp [evalCompAtom, he]
  · intro e v2 o2 l2 he hv2
    simp [evalCompAtom, he, hv2]

/-- C6 (witness): the atom semantics at `odoo_version >= '16.0'` under
`{odoo_version: "17.0"}`, both operands parsing as versions. -/
theorem c6_witness :
    evalCompAtom [("odoo_version", "17.0")] "odoo_version >= '16.0'"
      = CompOp.ge.holds (vcmp [17, 0] [16, 0]) :=
  (c6_atom_semantics [("odoo_version", "17.0")] "odoo_version >= '16.0'"
    "odoo_version" "16.0" "17.0" CompOp.ge [17, 0] [16, 0]
    (by decide) (by decide)).1 (by decide) (by decide)

/-- C4: when both the `common` section and a named preset set the same
field, the merger concatenates the `extra_commands` lists (common's
entries first), comma-joins the string-list fields (common's text, a
comma, the preset's text) when both sides are non-empty, and replaces
every other field outright with the preset's value; in particular the
spec's example `common = \x7binstall_odoo_requirements: true,
extra_commands: [A]\x7d`, `preset = \x7bextra_commands: [B]\x7d` merges to
`extra_commands = [A, B]`. -/
theorem c4_preset_merge_rules (A B : List CmdSpec) (k s t : String)
    (v w : TomlVal) :
    (A ≠ [] →
      mergePresetOptions [("extra_commands", .vList A)]
          [("extra_commands", .vList B)]
        = [("extra_commands", .vList (A ++ B))]) ∧
    (k ∈ string_list_fields → s ≠ "" → t ≠ "" →
      mergePresetOptions [(k, .vStr s)] [(k, .vStr t)]
        = [(k, .vStr (s ++ "," ++ t))]) ∧
    (k ∉ list_fields → k ∉ string_list_fields →
      k ≠ "description" → tomlIsNone v = false → tomlIsNone w = false →
      mergePresetOptions [(k, v)] [(k, w)] = [(k, w)]) ∧
    (A ≠ [] →
      mergePresetOptions
          [("install_odoo_requirements", .vBool true), ("extra_commands", .vList A)]
          [("extra_commands", .vList B)]
        = [("install_odoo_requirements", .vBool true),
            ("extra_commands", .vList (A ++ B))]) := by
  refine ⟨?_, ?_, ?_, ?_⟩
  · intro hA
    simp [mergePresetOptions, dictSet, dictFind?, tomlTruthy, tomlIsNone,
      list_fields, hA]
  · intro hk hs ht
    simp only [string_list_fields, List.mem_cons, List.not_mem_nil, or_false] at hk
    rcases hk with rfl | rfl | rfl | rfl <;>
      simp [mergePresetOptions, dictSet, dictFind?, tomlTruthy, tomlIsNone,
        tomlValStr, list_fields, string_list_fields, hs]
  · intro h1 h2 h3 hv hw
    simp [mergePresetOptions, dictSet, dictFind?, h1, h2, h3, hv, hw]
  · intro hA
    simp [mergePresetOptions, dictSet, dictFind?, tomlTruthy, tomlIsNone,
      list_fields, string_list_fields, hA]

/-- C4 (witness): the spec's comma-join example `foo`/`bar` merges to the
literal string `foo,bar`. -/
theorem c4_witness :
    mergePresetOptions [("ignore_from_odoo_requirements", .vStr "foo")]
        [("ignore_from_odoo_requirements", .vStr "bar")]
      = [("ignore_from_odoo_requirements", .vStr "foo,bar")] :=
  (c4_preset_merge_rules [] [] "ignore_from_odoo_requirements" "foo" "bar"
    .vNone .vNone).2.1 (by decide) (by decide) (by decide)

/-- C1 (counterexample): the ignore entry `pkg>=1.0` does not exclude the
requirement `pkg>=2.0` — the processor emits the line — even though the
requirement's specifier range is fully contained in the ignore entry's
range, so exclusion does not hold iff the requirement's range is
contained in the ignore entry's range, and in particular the claim's
example `ignore pkg>=1.0 excludes pkg>=2.0` is false on the code. -/
theorem c1_counterexample :
    processRequirementLine (fun _ => true)
        (buildIgnoredReqMap (fun _ => true) ["pkg>=1.0"]).1 "pkg>=2.0"
      = some "pkg>=2.0" ∧
    (buildIgnoredReqMap (fun _ => true) ["pkg>=1.0"]).1
      = [("pkg", [⟨"pkg", [⟨CompOp.ge, "1.0"⟩], none⟩])] ∧
    parseRequirement "pkg>=2.0" = some ⟨"pkg", [⟨CompOp.ge, "2.0"⟩], none⟩ ∧
    SpecSetContained [⟨CompOp.ge, "2.0"⟩] [⟨CompOp.ge, "1.0"⟩] := by
  refine ⟨by decide, by decide, by decide, ?_⟩
  intro v hv s hs
  have h2 : satisfiesSpec v ⟨CompOp.ge, "2.0"⟩ = true := hv _ (by simp)
  have hs' : s = ⟨CompOp.ge, "1.0"⟩ := by simpa using hs
  subst hs'
  simp only [satisfiesSpec, CompOp.holds] at h2 ⊢
  have hp2 : parseReleaseVersion "2.0" = some [2, 0] := by decide
  have hp1 : parseReleaseVersion "1.0" = some [1, 0] := by decide
  rw [hp2] at h2
  rw [hp1]
  have h2' : (vcmp v [2, 0] != Ordering.lt) = true := h2
  show (vcmp v [1, 0] != Ordering.lt) = true
  match v with
  | [] => exact absurd h2' (by decide)
  | 0 :: as =>
    rw [show vcmp (0 :: as) [2, 0] = Ordering.lt from by
      simp [vcmp, (by decide : compare 0 2 = Ordering.lt)]] at h2'
    exact absurd h2' (by decide)
  | 1 :: as =>
    rw [show vcmp (1 :: as) [2, 0] = Ordering.lt from by
      simp [vcmp, (by decide : compare 1 2 = Ordering.lt)]] at h2'
    exact absurd h2' (by decide)
  | (n + 2) :: as =>
    have hgt : compare (n + 2) 1 = .gt := Nat.compare_eq_gt.mpr (by omega)
    rw [show vcmp ((n + 2) :: as) [1, 0] = Ordering.gt from by simp [vcmp, hgt]]
    decide

/-- C1 (amended): for a formally parsed requirement, the processor's
ignore check succeeds iff some ignore entry under the requirement's
lower-cased name either has an empty specifier, or the requirement's
specifier is non-empty and every clause of the ignore entry's specifier
occurs (up to canonical equality) among the requirement's own clauses — a
syntactic clause-subset test, not range containment. -/
theorem c1_amended_clause_subset (m : IgnoreMap) (req : Req) :
    shouldIgnore m req = true ↔
      ∃ ign ∈ (mapFind? m (pyLower req.name)).getD [],
        ign.specs = [] ∨
          (req.specs ≠ [] ∧ ∀ s ∈ ign.specs, specMem s req.specs = true) := by
  unfold shouldIgnore
  cases hf : mapFind? m (pyLower req.name) with
  | none => simp
  | some entries =>
    simp only [Option.getD_some, List.any_eq_true]
    exact ⟨fun ⟨i, hm, hc⟩ => ⟨i, hm, (ignore_cond_iff req i).mp hc⟩,
      fun ⟨i, hm, hc⟩ => ⟨i, hm, (ignore_cond_iff req i).mpr hc⟩⟩

/-- C1 (witness): the amended clause-subset rule at a concrete input —
`pkg>=1.0` does ignore `pkg>=1.0,<2.0`, whose clause set contains the
entry's clause. -/
theorem c1_amended_witness :
    shouldIgnore [("pkg", [⟨"pkg", [⟨CompOp.ge, "1.0"⟩], none⟩])]
      ⟨"pkg", [⟨CompOp.ge, "1.0"⟩, ⟨CompOp.lt, "2.0"⟩], none⟩ = true :=
  (c1_amended_clause_subset [("pkg", [⟨"pkg", [⟨CompOp.ge, "1.0"⟩], none⟩])]
    ⟨"pkg", [⟨CompOp.ge, "1.0"⟩, ⟨CompOp.lt, "2.0"⟩], none⟩).mpr
    ⟨⟨"pkg", [⟨CompOp.ge, "1.0"⟩], none⟩, by decide,
      Or.inr ⟨by decide, by decide⟩⟩

/-- C8: an ignore entry with an empty specifier excludes every formally
parseable requirement whose lower-cased name reaches it in the ignore
map, regardless of the requirement's own specifier: the processor skips
the line. -/
theorem c8_empty_specifier_ignores_all (mEval : String → Bool) (m : IgnoreMap)
    (line v : String) (req : Req) (entries : List Req) (ign : Req)
    (hk : keepIfMarkerMatches mEval (pyStrip line) = .kept v)
    (hp : parseRequirement v = some req)
    (hf : mapFind? m (pyLower req.name) = some entries)
    (hi : ign ∈ entries) (he : ign.specs = []) :
    processRequirementLine mEval m line = none := by
  obtain ⟨h1, h2⟩ := keep_not_dropped_conds mEval (pyStrip line) (by simp [hk])
  have hv : v ≠ "" := by
    intro h0
    rw [h0] at hp
    exact Option.noConfusion ((by decide : parseRequirement "" = none) ▸ hp)
  have hs : shouldIgnore m req = true := by
    unfold shouldIgnore
    rw [hf, List.any_eq_true]
    exact ⟨ign, hi, by simp [he]⟩
  unfold processRequirementLine
  simp [h1, h2, hk, hv, hp, hs]

/-- C8 (witness): the empty-specifier rule at a concrete input — ignore
entry `pkg` (no specifier) excludes `pkg>=9.9`. -/
theorem c8_witness :
    processRequirementLine (fun _ => true) [("pkg", [⟨"pkg", [], none⟩])]
      "pkg>=9.9" = none :=
  c8_empty_specifier_ignores_all (fun _ => true) [("pkg", [⟨"pkg", [], none⟩])]
    "pkg>=9.9" "pkg>=9.9" ⟨"pkg", [⟨CompOp.ge, "9.9"⟩], none⟩
    [⟨"pkg", [], none⟩] ⟨"pkg", [], none⟩
    (by decide) (by decide) (by decide) (by decide) rfl

/-- C9: a line that fails formal requirement parsing is excluded iff the
permissive pattern extracts a name whose lower-cased form is a key of the
ignore map (a bare-name check, with no specifier involved); otherwise the
original line is emitted verbatim (and so counted once). -/
theorem c9_fallback_by_name (mEval : String → Bool) (m : IgnoreMap)
    (line : String)
    (hk : keepIfMarkerMatches mEval (pyStrip line) = .invalidReq) :
    (processRequirementLine mEval m line = none ↔
      ∃ nm, extractLibName (pyStrip line) = some nm ∧
        mapContains m (pyStrip (pyLower nm)) = true) ∧
    (processRequirementLine mEval m line = none ∨
      processRequirementLine mEval m line = some (pyStrip line)) := by
  obtain ⟨h1, h2⟩ := keep_not_dropped_conds mEval (pyStrip line) (by simp [hk])
  have hpr : processRequirementLine mEval m line
      = fallbackProcess m (pyStrip line) := by
    unfold processRequirementLine
    simp [h1, h2, hk]
  rw [hpr]
  unfold fallbackProcess
  cases hx : extractLibName (pyStrip line) with
  | none => simp
  | some nm =>
    by_cases hc : mapContains m (pyStrip (pyLower nm)) = true
    · simp [hc]
    · simp only [Bool.not_eq_true] at hc
      simp [hc]

/-- C9 (witness): the invalid line `foo bar` is excluded when `foo` is an
ignore-map key. -/
theorem c9_witness :
    processRequirementLine (fun _ => true) [("foo", [⟨"foo", [], none⟩])]
      "foo bar" = none :=
  (c9_fallback_by_name (fun _ => true) [("foo", [⟨"foo", [], none⟩])] "foo bar"
    (by decide)).1.mpr ⟨"foo", by decide, by decide⟩

/-- C2 (counterexample): the invariant "every emitted line carries no
marker, including lines emitted through the permissive fallback path"
fails: the line `foo bar; os_name == 'nt'` fails formal parsing and is
emitted verbatim, marker text included — even under a marker evaluator
that rejects every marker, showing the marker is neither evaluated nor
stripped on that path. -/
theorem c2_counterexample :
    processRequirementLine (fun _ => false) [] "foo bar; os_name == 'nt'"
      = some "foo bar; os_name == 'nt'" ∧
    carriesMarkerText "foo bar; os_name == 'nt'" = true :=
  ⟨by decide, by decide⟩

/-- C2 (amended): every line emitted through the formal path — the line
parsed as a requirement, its marker evaluated, the ignore check passed —
is exactly the marker-free `name + specifier` text and carries no marker;
only fallback lines are emitted verbatim and may carry marker text. -/
theorem c2_amended_formal_path_marker_free (mEval : String → Bool)
    (m : IgnoreMap) (line v : String) (req : Req)
    (hk : keepIfMarkerMatches mEval (pyStrip line) = .kept v)
    (hp : parseRequirement v = some req)
    (hs : shouldIgnore m req = false) :
    processRequirementLine mEval m line = some v ∧
    carriesMarkerText v = false := by
  obtain ⟨h1, h2⟩ := keep_not_dropped_conds mEval (pyStrip line) (by simp [hk])
  obtain ⟨req0, hq0, hv⟩ := kept_shape mEval (pyStrip line) v hk
  have hcl : carriesMarkerText v = false := by
    rw [hv]
    exact emitted_no_semicolon _ _ hq0
  have hvne : v ≠ "" := by
    intro h0
    rw [h0] at hp
    exact Option.noConfusion ((by decide : parseRequirement "" = none) ▸ hp)
  refine ⟨?_, hcl⟩
  unfold processRequirementLine
  simp [h1, h2, hk, hvne, hp, hs]

/-- C2 (witness): the formal path at a concrete input — the marker
`os_name == 'posix'` is stripped and `pkg==1.0` is emitted marker-free. -/
theorem c2_witness :
    processRequirementLine (fun _ => true) [] "pkg==1.0 ; os_name == 'posix'"
        = some "pkg==1.0" ∧
    carriesMarkerText "pkg==1.0" = false :=
  c2_amended_formal_path_marker_free (fun _ => true) []
    "pkg==1.0 ; os_name == 'posix'" "pkg==1.0"
    ⟨"pkg", [⟨CompOp.eq, "1.0"⟩], none⟩ (by decide) (by decide) (by decide)

end OdooVenv
